import Mathlib

/-!
Verification of the AVAONE Q1 spreadsheet-import reconciliation engine.

A shallow embedding of `scripts/import_avaone_q1.py` (the repository's single
source file) and proofs about its reconciliation behaviour: identity tagging,
create/update/soft-delete dispatch, manifest handling, batch ordering and the
control-document upsert.

Conventions of the embedding:
* A worksheet cell is observed by the script only through `is None`,
  `str(cell)` and (for datetimes) `cell.strftime("%Y-%m-%d")`; the `Cell`
  type records exactly those observations.
* Python dicts keyed by strings are embedded as association lists with
  unique keys (`dictInsert` mirrors `d[k] = v`: it overwrites the value of
  an existing key in place and otherwise appends).
* `datetime.now()` is passed in as the pre-rendered string `Config.now`;
  environment-variable parsing is out of scope (the mode/flag values are the
  fields of `Config`).
* Python set iteration order (over `removed_tags`) is unspecified; the model
  fixes first-occurrence order of the previous manifest's tag list, which is
  irrelevant to every property proved here.
-/

namespace Avaone

/-- `isPrefixL needle l` : `needle` is a prefix of `l` (char-list level). -/
def isPrefixL : List Char → List Char → Bool
  | [], _ => true
  | _ :: _, [] => false
  | a :: as, b :: bs => a == b && isPrefixL as bs

/-- `subList needle hay` : `needle` occurs as a contiguous sublist of `hay`. -/
def subList : List Char → List Char → Bool
  | needle, [] => needle.isEmpty
  | needle, c :: rest => isPrefixL needle (c :: rest) || subList needle rest

/-- Python's `needle in hay` on strings (substring containment). -/
def strContains (hay needle : String) : Bool :=
  subList needle.data hay.data

/-- Python's `sheet_name.replace(' ', '_')`. -/
def underscoreSpaces (s : String) : String :=
  String.mk (s.data.map (fun c => if c = ' ' then '_' else c))

/-- ASCII whitespace as stripped by Python's `str.strip()`. -/
def isSpaceChar (c : Char) : Bool :=
  c = ' ' || c = '\t' || c = '\n' || c = '\x0d' || c = '\x0b' || c = '\x0c'

/-- Python's `str.strip()`: drop leading and trailing whitespace. -/
def pyStrip (s : String) : String :=
  String.mk (((s.data.dropWhile isSpaceChar).reverse.dropWhile isSpaceChar).reverse)

/-- Python's `str.lower()` (ASCII case folding, which covers every keyword
the script compares against). -/
def pyLower (s : String) : String :=
  String.mk (s.data.map Char.toLower)

/-- A worksheet cell as the script observes it: `empty` is Python `None`;
`str s` is any other non-datetime value whose `str()` form is `s`;
`date p f` is a `datetime` value with `str(val) = p` and
`val.strftime("%Y-%m-%d") = f`. -/
inductive Cell where
  | empty : Cell
  | str : String → Cell
  | date : String → String → Cell
deriving DecidableEq, Repr

/-- `str(c)` for a non-`None` test; for `empty` (never consulted after the
`is None` check) we return `""`. -/
def pyStr : Cell → String
  | Cell.empty => ""
  | Cell.str s => s
  | Cell.date p _ => p

/-- `c is None`. -/
def isNoneCell : Cell → Bool
  | Cell.empty => true
  | _ => false

/-- `c is not None and str(c).strip()` (truthiness of the stripped string). -/
def cellFilled (c : Cell) : Bool :=
  !(isNoneCell c) && !(pyStrip (pyStr c) == "")

/-- Header map: lowercased stripped header text → 0-based column index
(a Python dict in insertion order). -/
abbrev Headers := List (String × Nat)

/-- Python dict assignment `d[k] = v`: overwrite in place if the key exists
(keeping its insertion position), else append. -/
def dictInsert (d : List (String × Nat)) (k : String) (v : Nat) : List (String × Nat) :=
  if d.any (fun p => p.1 == k) then
    d.map (fun p => if p.1 == k then (k, v) else p)
  else d ++ [(k, v)]

/-- The header-row scan body: for each non-empty cell at column `col_idx`,
`headers[str(cell).strip().lower()] = col_idx`. -/
def buildHeaders (row : List Cell) : Headers :=
  row.enum.foldl
    (fun d p =>
      if cellFilled p.2 then dictInsert d (pyLower (pyStrip (pyStr p.2))) p.1 else d)
    []

/-- Scan at most the first 5 rows for the first row with ≥ 2 non-empty cells;
return its header map and its 1-based index (`header_row` stays `1` and the
map stays empty when no row qualifies, as in the script). -/
def findHeadersAux : List (List Cell) → Nat → Headers × Nat
  | [], _ => ([], 1)
  | row :: rest, idx =>
    if (row.filter cellFilled).length ≥ 2 then (buildHeaders row, idx)
    else findHeadersAux rest (idx + 1)

/-- `findHeaders rows` = the script's header-detection loop over
`iter_rows(min_row=1, max_row=5)`. -/
def findHeaders (rows : List (List Cell)) : Headers × Nat :=
  findHeadersAux (rows.take 5) 1

/-- `get_val(row, col_name_keywords)`: walk the header map in insertion
order; at the first header whose text contains some lowercased keyword and
whose column index is inside the row, return that cell's value (empty string
for `None`, `%Y-%m-%d` form for datetimes, stripped `str` otherwise); if the
index is out of range, keep walking; return `""` when nothing matches. -/
def getVal : Headers → List Cell → List String → String
  | [], _, _ => ""
  | (h, idx) :: rest, row, keywords =>
    if keywords.any (fun k => strContains h (pyLower k)) then
      match row.get? idx with
      | Option.some c =>
        match c with
        | Cell.empty => ""
        | Cell.str s => pyStrip s
        | Cell.date _ f => f
      | Option.none => getVal rest row keywords
    else getVal rest row keywords

/-- Operating mode (`MODE` environment variable after validation: anything
other than `"sync"` collapses to `create`). -/
inductive Mode where
  | create : Mode
  | sync : Mode
deriving DecidableEq, Repr

/-- The script's configuration after environment parsing, plus the run
timestamp `now` (= `datetime.now().strftime("%Y-%m-%d %H:%M:%S")`) and the
source-file name interpolated into payload text. -/
structure Config where
  mode : Mode
  top15Only : Bool
  syncTimeline : Bool
  excelFile : String
  now : String
deriving DecidableEq, Repr

/-- The persisted manifest (`avaone_q1_manifest.json`); absence or corrupt
JSON loads as `{ srcTags := [], controlDocId := none }`. -/
structure Manifest where
  srcTags : List String
  controlDocId : Option Nat
deriving DecidableEq, Repr

/-- The Existing-Record Index `db_tasks` (source tag → task id), as built by
the startup DB scan; a Python dict, so keys are unique. -/
abbrev Index := List (String × Nat)

/-- Python dict lookup `db_tasks[t]` / `t in db_tasks`. -/
def lookupIdx : Index → String → Option Nat
  | [], _ => Option.none
  | (k, v) :: rest, t => if k = t then Option.some v else lookupIdx rest t

/-- The fields an emitted action's `data` dict can carry; a field that the
script never writes for a given action stays `none` (absent key). -/
structure ActionData where
  id : Option Nat := Option.none
  title : Option String := Option.none
  workspace : Option String := Option.none
  notes : Option String := Option.none
  status : Option String := Option.none
  schedule_bucket : Option String := Option.none
  priority : Option Nat := Option.none
  scheduled_date : Option String := Option.none
  content_md : Option String := Option.none
deriving DecidableEq, Repr

/-- One emitted action: the `type` string (`"task.create"`, `"task.update"`,
`"doc.create"`, `"doc.update"`), the optional `saveAs` marker (only used on
the control-document create) and the `data` payload. -/
structure Action where
  type : String
  saveAs : Option String := Option.none
  data : ActionData
deriving DecidableEq, Repr

/-- A worksheet: its name, the rows yielded by `iter_rows(values_only=True)`
(so `rows.length = ws.max_row`), and `ws.max_column`. -/
structure Sheet where
  name : String
  rows : List (List Cell)
  maxCol : Nat
deriving DecidableEq, Repr

/-- `src_tag = f"src:xl:{sheet_name.replace(' ', '_')}:r{row_idx}"`. -/
def mkSrcTag (sheetName : String) (rowIdx : Nat) : String :=
  "src:xl:" ++ underscoreSpaces sheetName ++ ":r" ++ toString rowIdx

/-- What one processed table row contributes to the run: its source tag, the
1-based row index it was derived from, whether the create branch was taken
(the branch whose counters feed `stats_created`), and the emitted action. -/
structure RowResult where
  tag : String
  rowIdx : Nat
  isCreate : Bool
  action : Action
deriving DecidableEq, Repr

/-- `primary_val`: `get_val(row, ["species"])`, falling back to the stripped
first cell; `none` means the row is skipped (`continue`). -/
def rowPrimary (hs : Headers) (row : List Cell) : Option String :=
  let p := getVal hs row ["species"]
  if p ≠ "" then Option.some p
  else
    match row.head? with
    | Option.none => Option.none
    | Option.some c =>
      if isNoneCell c then Option.none
      else if pyStrip (pyStr c) ≠ "" then Option.some (pyStrip (pyStr c))
      else Option.none

/-- The NanaGarden top-15 filter: skip the row iff the sheet name contains
`"NanaGarden"`, the flag is on, and the lowercased tier contains neither
`"hero"` nor `"signature"`. -/
def nanaSkip (cfg : Config) (sheetName tier : String) : Bool :=
  strContains sheetName "NanaGarden" && cfg.top15Only
    && !(strContains (pyLower tier) "hero") && !(strContains (pyLower tier) "signature")

/-- `if size: notes_text += label + size + "\n"` and friends. -/
def optLine (label v : String) : String :=
  if v ≠ "" then label ++ v ++ "\n" else ""

/-- Everything the script computes for a row before choosing the
create/update branch (straight-line code between the tier filter and the
`mode` test, plus the timeline condition both branches test). -/
structure RowInfo where
  tag : String
  rowIdx : Nat
  title : String
  workspace : String
  notes : String
  task_status : String
  task_bucket : String
  timelineOn : Bool
  sched : String
deriving DecidableEq, Repr

/-- Build the row's computed values from the sheet and the extracted
fields. -/
def rowInfo (cfg : Config) (sheetName : String) (hs : Headers) (rowIdx : Nat)
    (row : List Cell) (primary_val : String) : RowInfo :=
  let tier := getVal hs row ["tier"]
  let title0 := sheetName ++ ": " ++ primary_val
  let title := if tier ≠ "" then title0 ++ " [Tier:" ++ tier ++ "]" else title0
  let src_tag := mkSrcTag sheetName rowIdx
  let size := getVal hs row ["size", "inch"]
  let price := getVal hs row ["price", "thb"]
  let photos := getVal hs row ["photos ready"]
  let title_ready := getVal hs row ["title ready"]
  let copy := getVal hs row ["copy ready"]
  let url := getVal hs row ["url", "listing"]
  let cta := getVal hs row ["cta"]
  let status_val := getVal hs row ["status"]
  let notes_val := getVal hs row ["notes"]
  let start_date := getVal hs row ["start date", "scheduled_date", "date"]
  let notes_text :=
    "project:avaone-q1\nxl:file:" ++ cfg.excelFile ++ "\n" ++ src_tag ++ "\n\n"
      ++ optLine "Size (inch): " size
      ++ optLine "Est price range (THB): " price
      ++ optLine "Photos ready: " photos
      ++ optLine "Title ready: " title_ready
      ++ optLine "Copy ready: " copy
      ++ optLine "Listing URL: " url
      ++ optLine "CTA: " cta
      ++ optLine "Status: " status_val
      ++ optLine "Notes: " notes_val
      ++ "\n- [ ] Photos ready\n- [ ] Title ready\n- [ ] Copy ready\n- [ ] Listing URL\n- [ ] Status updated"
  let workspace :=
    if strContains (pyLower sheetName) "ops" then "ops"
    else if strContains (pyLower sheetName) "avacrm" then "avacrm"
    else "content"
  { tag := src_tag
    rowIdx := rowIdx
    title := title
    workspace := workspace
    notes := notes_text
    task_status := if start_date ≠ "" then "planned" else "inbox"
    task_bucket := if start_date ≠ "" then "morning" else "none"
    timelineOn := cfg.syncTimeline && !(start_date == "")
    sched := String.take start_date 10 }

/-- The `task.create` branch (`mode == "create" or src_tag not in db_tasks`). -/
def mkCreateResult (info : RowInfo) : RowResult :=
  { tag := info.tag
    rowIdx := info.rowIdx
    isCreate := true
    action :=
      { type := "task.create"
        data :=
          { title := Option.some info.title
            workspace := Option.some info.workspace
            notes := Option.some info.notes
            status := Option.some info.task_status
            schedule_bucket := Option.some info.task_bucket
            priority := Option.some 2
            scheduled_date :=
              if info.timelineOn then Option.some info.sched else Option.none } } }

/-- The `task.update` branch (`mode == "sync" and src_tag in db_tasks`);
status/bucket/scheduled_date are written only when timeline sync applies. -/
def mkUpdateResult (info : RowInfo) (tid : Nat) : RowResult :=
  { tag := info.tag
    rowIdx := info.rowIdx
    isCreate := false
    action :=
      { type := "task.update"
        data :=
          { id := Option.some tid
            title := Option.some info.title
            workspace := Option.some info.workspace
            notes := Option.some info.notes
            status := if info.timelineOn then Option.some info.task_status else Option.none
            schedule_bucket := if info.timelineOn then Option.some info.task_bucket else Option.none
            scheduled_date := if info.timelineOn then Option.some info.sched else Option.none } } }

/-- Branch dispatch for one surviving row: `mode == "create"` or an
unresolvable tag creates, otherwise (sync with a resolvable tag) updates. -/
def emitRow (cfg : Config) (dbTasks : Index) (sheetName : String) (hs : Headers)
    (rowIdx : Nat) (row : List Cell) (primary_val : String) : RowResult :=
  match lookupIdx dbTasks (rowInfo cfg sheetName hs rowIdx row primary_val).tag with
  | Option.none => mkCreateResult (rowInfo cfg sheetName hs rowIdx row primary_val)
  | Option.some tid =>
    if cfg.mode = Mode.create then mkCreateResult (rowInfo cfg sheetName hs rowIdx row primary_val)
    else mkUpdateResult (rowInfo cfg sheetName hs rowIdx row primary_val) tid

/-- One iteration of the row loop: resolve the primary field (else
`continue`), apply the NanaGarden filter (else `continue`), then emit. -/
def processRow (cfg : Config) (dbTasks : Index) (sheetName : String) (hs : Headers)
    (rowIdx : Nat) (row : List Cell) : Option RowResult :=
  match rowPrimary hs row with
  | Option.none => Option.none
  | Option.some pv =>
    if nanaSkip cfg sheetName (getVal hs row ["tier"]) then Option.none
    else Option.some (emitRow cfg dbTasks sheetName hs rowIdx row pv)

/-- `is_table = ws.max_row >= 2 and ws.max_column >= 2`. -/
def isTableShape (s : Sheet) : Bool :=
  decide (s.rows.length ≥ 2) && decide (s.maxCol ≥ 2)

/-- The whole row loop of a table sheet: rows after the header row,
enumerated from `header_row + 1`, each fed through `processRow`. -/
def sheetRowResults (cfg : Config) (dbTasks : Index) (s : Sheet) : List RowResult :=
  (List.enum (s.rows.drop (findHeaders s.rows).2)).filterMap
    (fun q => processRow cfg dbTasks s.name (findHeaders s.rows).1
      ((findHeaders s.rows).2 + 1 + q.1) q.2)

/-- `str(c).replace('\n', ' ') if c is not None else ""` in the reference
document's table rendering. -/
def docCellStr (c : Cell) : String :=
  if isNoneCell c then ""
  else String.mk ((pyStr c).data.map (fun ch => if ch = '\n' then ' ' else ch))

/-- One markdown table line `"| " + " | ".flatten(...) + " |\n"`. -/
def refRowLine (row : List Cell) : String :=
  "| " ++ String.intercalate " | " (row.map docCellStr) ++ " |\n"

/-- The reference document body: heading, project markers, then the rows of
`iter_rows(min_row=1, max_row=min(ws.max_row, 50))`. -/
def mkRefDocContent (cfg : Config) (s : Sheet) : String :=
  "# " ++ s.name ++ "\n\nproject:avaone-q1\nxl:file:" ++ cfg.excelFile ++ "\n\n"
    ++ String.join ((s.rows.take (min s.rows.length 50)).map refRowLine)

/-- The `doc.create` emitted for a non-table (reference) sheet. -/
def mkRefDocAction (cfg : Config) (s : Sheet) : Action :=
  { type := "doc.create"
    data :=
      { title := Option.some ("Reference: " ++ s.name ++ " - AVAONE Q1")
        content_md := Option.some (mkRefDocContent cfg s) } }

/-- What processing one sheet contributes to the run state. -/
structure SheetResult where
  actions : List Action
  srcTags : List String
  created : Nat
  updated : Nat
  summary : String
deriving DecidableEq, Repr

/-- One iteration of the sheet loop: table sheets with a detected header run
the row loop; everything else becomes one reference document. -/
def processSheet (cfg : Config) (dbTasks : Index) (s : Sheet) : SheetResult :=
  if isTableShape s && !(findHeaders s.rows).1.isEmpty then
    { actions := (sheetRowResults cfg dbTasks s).map (fun r => r.action)
      srcTags := (sheetRowResults cfg dbTasks s).map (fun r => r.tag)
      created := ((sheetRowResults cfg dbTasks s).filter (fun r => r.isCreate)).length
      updated := ((sheetRowResults cfg dbTasks s).filter (fun r => !r.isCreate)).length
      summary := "- **" ++ s.name ++ "**: "
        ++ toString ((sheetRowResults cfg dbTasks s).filter (fun r => r.isCreate)).length
        ++ " created, "
        ++ toString ((sheetRowResults cfg dbTasks s).filter (fun r => !r.isCreate)).length
        ++ " updated" }
  else
    { actions := [mkRefDocAction cfg s]
      srcTags := []
      created := 0
      updated := 0
      summary := "- **" ++ s.name ++ "**: Created as Document" }

/-- `removed_tags = set(prev) - set(curr)`, determinized to first-occurrence
order of the previous manifest's tag list (Python set iteration order is
unspecified; no proved property depends on the order chosen). -/
def removedTags (prev curr : List String) : List String :=
  (prev.foldl (fun acc t => if acc.contains t then acc else acc ++ [t]) []).filter
    (fun t => !(curr.contains t))

/-- The soft-delete action for a resolvable vanished tag. -/
def mkSoftDelete (now : String) (tid : Nat) : Action :=
  { type := "task.update"
    data :=
      { id := Option.some tid
        status := Option.some "done"
        notes := Option.some ("[SYNC] Removed from Excel on " ++ now) } }

/-- The sync-mode soft-delete loop: for every removed tag resolvable in
`db_tasks`, one `task.update` marking the record done. -/
def softDeleteActions (now : String) (dbTasks : Index) (prev curr : List String) :
    List Action :=
  (removedTags prev curr).filterMap
    (fun t => (lookupIdx dbTasks t).map (mkSoftDelete now))

/-- `mode.upper()`. -/
def modeUpper : Mode → String
  | Mode.create => "CREATE"
  | Mode.sync => "SYNC"

/-- The control panel document's markdown body. -/
def controlDocContent (cfg : Config) (created updated removed : Nat)
    (summaries : List String) : String :=
  "# AVAONE Q1 — Control Panel\n\nproject:avaone-q1 control-doc\n\n**Source File:** "
    ++ cfg.excelFile ++ "\n**Import Date:** " ++ cfg.now ++ "\n**Mode:** "
    ++ modeUpper cfg.mode ++ "\n\n## Stats\n- Tasks Created: " ++ toString created
    ++ "\n- Tasks Updated: " ++ toString updated ++ "\n- Tasks Soft-Deleted: "
    ++ toString removed ++ "\n\n## Sheets Processed\n"
    ++ String.intercalate "\n" summaries
    ++ "\n\n## Instructions\nTo re-run sync, place updated Excel file at root and run `./scripts/import_avaone_q1.sh sync`.\n"

/-- The control document's fixed title. -/
def controlDocTitle : String := "AVAONE Q1 — Control Panel"

/-- The control-document upsert inserted at position 0: a create when
`mode == "create"` or no reference is known, else an update at the
reference. -/
def mkControlAction (mode : Mode) (cid : Option Nat) (content : String) : Action :=
  if mode = Mode.create ∨ cid = Option.none then
    { type := "doc.create"
      saveAs := Option.some "control_doc"
      data := { title := Option.some controlDocTitle, content_md := Option.some content } }
  else
    { type := "doc.update"
      data := { id := cid, title := Option.some controlDocTitle
                content_md := Option.some content } }

/-- `control_doc_id`: the DB content-scan result, falling back to the
manifest's saved reference (ids are positive, so Python truthiness of the
id coincides with `Option` emptiness). -/
def resolveCid (dbControlDocId : Option Nat) (man : Manifest) : Option Nat :=
  match dbControlDocId with
  | Option.some i => Option.some i
  | Option.none => man.controlDocId

/-- The run's observable output: the emitted action batch
(`payload["actions"]`), the manifest written at the end, and the three
counters reported on stderr. -/
structure RunResult where
  actions : List Action
  manifest : Manifest
  stats_created : Nat
  stats_updated : Nat
  stats_removed : Nat
deriving DecidableEq, Repr

/-- `try: sqlite3.connect(...) ... except OperationalError: pass` — a store
that is absent or whose query fails leaves `db_tasks` empty. -/
def loadIndex (store : Option Index) : Index :=
  match store with
  | Option.some idx => idx
  | Option.none => []

/-- The per-sheet results of the whole sheet loop. -/
def runSheetResults (cfg : Config) (dbTasks : Index) (sheets : List Sheet) :
    List SheetResult :=
  sheets.map (processSheet cfg dbTasks)

/-- `current_src_tags` at the end of the sheet loop. -/
def runCurrTags (cfg : Config) (dbTasks : Index) (sheets : List Sheet) : List String :=
  ((runSheetResults cfg dbTasks sheets).map SheetResult.srcTags).flatten

/-- The soft-delete block (`mode == "sync"` only). -/
def runSoftDeletes (cfg : Config) (dbTasks : Index) (man : Manifest)
    (sheets : List Sheet) : List Action :=
  if cfg.mode = Mode.sync then
    softDeleteActions cfg.now dbTasks man.srcTags (runCurrTags cfg dbTasks sheets)
  else []

/-- The whole run of `main()` after the inputs are acquired: sheet loop,
soft-delete block, control-document upsert at position 0, payload and new
manifest. -/
def runImport (cfg : Config) (dbTasks : Index) (dbControlDocId : Option Nat)
    (man : Manifest) (sheets : List Sheet) : RunResult :=
  let cid := resolveCid dbControlDocId man
  let srs := runSheetResults cfg dbTasks sheets
  let created := (srs.map SheetResult.created).sum
  let updated := (srs.map SheetResult.updated).sum
  let sds := runSoftDeletes cfg dbTasks man sheets
  let content := controlDocContent cfg created updated sds.length
    (srs.map SheetResult.summary)
  { actions := mkControlAction cfg.mode cid content
                 :: ((srs.map SheetResult.actions).flatten ++ sds)
    manifest := { srcTags := runCurrTags cfg dbTasks sheets, controlDocId := cid }
    stats_created := created
    stats_updated := updated
    stats_removed := sds.length }

/-- The tag a row contributes, if any — the same skip logic as `processRow`,
exposing that tag generation never consults the store index or the mode. -/
def rowTag? (cfg : Config) (sheetName : String) (hs : Headers) (rowIdx : Nat)
    (row : List Cell) : Option String :=
  match rowPrimary hs row with
  | Option.none => Option.none
  | Option.some _ =>
    if nanaSkip cfg sheetName (getVal hs row ["tier"]) then Option.none
    else Option.some (mkSrcTag sheetName rowIdx)

/-- The tags one sheet contributes to `current_src_tags`. -/
def sheetTags (cfg : Config) (s : Sheet) : List String :=
  if isTableShape s && !(findHeaders s.rows).1.isEmpty then
    (List.enum (s.rows.drop (findHeaders s.rows).2)).filterMap
      (fun q => rowTag? cfg s.name (findHeaders s.rows).1
        ((findHeaders s.rows).2 + 1 + q.1) q.2)
  else []

/-- All source tags generated by a run — a function of the workbook and the
configuration only. -/
def runTags (cfg : Config) (sheets : List Sheet) : List String :=
  (sheets.map (sheetTags cfg)).flatten

/-- The control-document body produced by a given run. -/
def runControlContent (cfg : Config) (dbTasks : Index) (man : Manifest)
    (sheets : List Sheet) : String :=
  controlDocContent cfg
    ((runSheetResults cfg dbTasks sheets).map SheetResult.created).sum
    ((runSheetResults cfg dbTasks sheets).map SheetResult.updated).sum
    (runSoftDeletes cfg dbTasks man sheets).length
    ((runSheetResults cfg dbTasks sheets).map SheetResult.summary)

/-- The control-document action produced by a given run. -/
def runControlAction (cfg : Config) (dbTasks : Index) (dbControlDocId : Option Nat)
    (man : Manifest) (sheets : List Sheet) : Action :=
  mkControlAction cfg.mode (resolveCid dbControlDocId man)
    (runControlContent cfg dbTasks man sheets)

/-- Decimal reading, the inverse of `Nat`'s decimal rendering — used only to
prove that distinct row indices produce distinct tag strings. -/
def readNat (cs : List Char) : Nat :=
  cs.foldl (fun a c => a * 10 + (c.toNat - 48)) 0

/-- A resolvable tag in sync mode yields the update action addressed at the
resolved record id. -/
def ResolvedYieldsUpdate (db : Index) (mode : Mode) (r : RowResult) : Prop :=
  ∀ tid, mode = Mode.sync → lookupIdx db r.tag = Option.some tid →
    r.action.type = "task.update" ∧ r.action.data.id = Option.some tid

/-- An unresolvable tag yields a create action carrying the full field
payload (title, workspace, notes, status, bucket, priority) and no target
id. -/
def UnresolvedYieldsCreate (db : Index) (r : RowResult) : Prop :=
  lookupIdx db r.tag = Option.none →
    r.action.type = "task.create" ∧ r.action.data.id = Option.none
      ∧ r.action.data.title.isSome = true ∧ r.action.data.workspace.isSome = true
      ∧ r.action.data.notes.isSome = true ∧ r.action.data.status.isSome = true
      ∧ r.action.data.schedule_bucket.isSome = true
      ∧ r.action.data.priority = Option.some 2

/-- With the flag on, a NanaGarden row whose lowercased tier contains neither
"hero" nor "signature" is skipped. -/
def TierExcluded (cfg : Config) (db : Index) (n : String) (hs : Headers) (i : Nat)
    (row : List Cell) : Prop :=
  strContains (pyLower (getVal hs row ["tier"])) "hero" = false →
  strContains (pyLower (getVal hs row ["tier"])) "signature" = false →
  processRow cfg db n hs i row = Option.none

/-- With the flag on, a NanaGarden row whose lowercased tier contains "hero"
or "signature" (and whose primary field resolves) is processed. -/
def TierIncluded (cfg : Config) (db : Index) (n : String) (hs : Headers) (i : Nat)
    (row : List Cell) : Prop :=
  ∀ pv, rowPrimary hs row = Option.some pv →
    (strContains (pyLower (getVal hs row ["tier"])) "hero" = true
      ∨ strContains (pyLower (getVal hs row ["tier"])) "signature" = true) →
    processRow cfg db n hs i row = Option.some (emitRow cfg db n hs i row pv)

/-- The C2 conclusion: in sync mode the soft-delete block is exactly one
`task.update` per removed-and-resolvable tag (the removed set is duplicate
free and is precisely previous-manifest-minus-current-run), each marking the
record "done" with the timestamped removal note; unresolvable removed tags
produce nothing; and the whole batch contains only the four create/update
kinds — never a delete. -/
def SoftDeleteSpec (cfg : Config) (db : Index) (dcid : Option Nat) (man : Manifest)
    (sheets : List Sheet) : Prop :=
  runSoftDeletes cfg db man sheets
      = (removedTags man.srcTags (runTags cfg sheets)).filterMap
          (fun t => (lookupIdx db t).map (mkSoftDelete cfg.now))
  ∧ (removedTags man.srcTags (runTags cfg sheets)).Nodup
  ∧ (∀ t, t ∈ removedTags man.srcTags (runTags cfg sheets)
        ↔ (t ∈ man.srcTags ∧ t ∉ runTags cfg sheets))
  ∧ (runImport cfg db dcid man sheets).stats_removed
      = ((removedTags man.srcTags (runTags cfg sheets)).filter
          (fun t => (lookupIdx db t).isSome)).length
  ∧ (∀ a ∈ runSoftDeletes cfg db man sheets,
        a.type = "task.update" ∧ a.data.status = Option.some "done"
          ∧ a.data.notes = Option.some ("[SYNC] Removed from Excel on " ++ cfg.now))
  ∧ (runImport cfg db dcid man sheets).actions
      = runControlAction cfg db dcid man sheets
          :: (((runSheetResults cfg db sheets).map SheetResult.actions).flatten
              ++ runSoftDeletes cfg db man sheets)
  ∧ (∀ a ∈ (runImport cfg db dcid man sheets).actions,
        a.type = "task.create" ∨ a.type = "task.update"
          ∨ a.type = "doc.create" ∨ a.type = "doc.update")

/-- The C7 conclusion: the second sync run (over the unchanged workbook,
against the manifest written by the first run) creates nothing, updates one
task per qualifying row, soft-deletes nothing, and emits no `task.create`
anywhere in its batch. -/
def SyncSecondRunSpec (cfg : Config) (db1 db2 : Index) (dcid1 dcid2 : Option Nat)
    (man1 : Manifest) (sheets : List Sheet) : Prop :=
  (runImport cfg db2 dcid2 (runImport cfg db1 dcid1 man1 sheets).manifest
      sheets).stats_created = 0
  ∧ (runImport cfg db2 dcid2 (runImport cfg db1 dcid1 man1 sheets).manifest
      sheets).stats_updated = (runTags cfg sheets).length
  ∧ (runImport cfg db2 dcid2 (runImport cfg db1 dcid1 man1 sheets).manifest
      sheets).stats_removed = 0
  ∧ (∀ a ∈ (runImport cfg db2 dcid2 (runImport cfg db1 dcid1 man1 sheets).manifest
        sheets).actions, ¬ a.type = "task.create")

/-- The C8 conclusion: all tags of a run are duplicate-free; each sheet's
tags are duplicate-free on their own; every row result's tag is the pure
positional function `mkSrcTag` of sheet name and row index (no cell content
enters); and a sheet's recorded `srcTags` are exactly its row results'
tags. -/
def TagSchemeSpec (cfg : Config) (db : Index) (sheets : List Sheet) : Prop :=
  (runTags cfg sheets).Nodup
  ∧ (∀ s, (sheetTags cfg s).Nodup)
  ∧ (∀ s ∈ sheets, ∀ r ∈ sheetRowResults cfg db s, r.tag = mkSrcTag s.name r.rowIdx)
  ∧ (∀ s, (processSheet cfg db s).srcTags = sheetTags cfg s)

/-- The C10 conclusion: a reference sheet emits exactly one document create,
whose body is the fixed header plus the markdown rendering of at most the
first 50 rows; two reference sheets agreeing on name and first 50 rows
produce identical actions. -/
def RefDocSpec (cfg : Config) (db : Index) (s1 s2 : Sheet) : Prop :=
  (processSheet cfg db s1).actions = [mkRefDocAction cfg s1]
  ∧ mkRefDocContent cfg s1
      = "# " ++ s1.name ++ "\n\nproject:avaone-q1\nxl:file:" ++ cfg.excelFile ++ "\n\n"
          ++ String.join ((s1.rows.take 50).map refRowLine)
  ∧ (processSheet cfg db s1).actions = (processSheet cfg db s2).actions

/-! ### Concrete inputs used by witnesses and counterexamples -/

/-- Sync-mode configuration with both flags off. -/
def wCfgSync : Config :=
  { mode := Mode.sync, top15Only := false, syncTimeline := false
    excelFile := "wb.xlsx", now := "2026-01-01 00:00:00" }

/-- Create-mode configuration with both flags off. -/
def wCfgCreate : Config :=
  { mode := Mode.create, top15Only := false, syncTimeline := false
    excelFile := "wb.xlsx", now := "2026-01-01 00:00:00" }

/-- Create-mode configuration with the top-15 flag on. -/
def wCfgTop15 : Config :=
  { mode := Mode.create, top15Only := true, syncTimeline := false
    excelFile := "wb.xlsx", now := "2026-01-01 00:00:00" }

/-- A two-column header row. -/
def wHeaderRow : List Cell := [Cell.str "Species", Cell.str "Tier"]

/-- A data row with tier `"Standard"`. -/
def wDataRow : List Cell := [Cell.str "Rose", Cell.str "Standard"]

/-- A data row with tier `"Hero Variant"`. -/
def wHeroRow : List Cell := [Cell.str "Palm", Cell.str "Hero Variant"]

/-- A small table sheet named `"S"`. -/
def wSheet : Sheet := { name := "S", rows := [wHeaderRow, wDataRow], maxCol := 2 }

/-- A NanaGarden table sheet with one Standard and one Hero Variant row. -/
def wNanaSheet : Sheet :=
  { name := "NanaGarden Trees", rows := [wHeaderRow, wDataRow, wHeroRow], maxCol := 2 }

/-- A single-column reference sheet. -/
def wRefSheet : Sheet := { name := "Notes", rows := [[Cell.str "hello"]], maxCol := 1 }

/-- An index resolving `wSheet`'s only data row to task id 7. -/
def wDb : Index := [("src:xl:S:r2", 7)]

/-- A manifest that already knows `wSheet`'s only data-row tag. -/
def wMan : Manifest := { srcTags := ["src:xl:S:r2"], controlDocId := Option.none }

/-- The row result of `wSheet`'s data row under `wCfgSync`/`wDb`. -/
def wRowSync : RowResult :=
  emitRow wCfgSync wDb "S" (findHeaders wSheet.rows).1 2 wDataRow "Rose"

/-- A 55-row single-column reference sheet. -/
def wRefLong1 : Sheet :=
  { name := "Long", rows := List.replicate 55 [Cell.str "x"], maxCol := 1 }

/-- A 51-row single-column reference sheet agreeing with `wRefLong1` on the
first 50 rows. -/
def wRefLong2 : Sheet :=
  { name := "Long", rows := List.replicate 51 [Cell.str "x"], maxCol := 1 }

/-- A manifest remembering one tag still present and one vanished tag. -/
def wManGone : Manifest :=
  { srcTags := ["src:xl:S:r2", "src:xl:Gone:r2"], controlDocId := Option.none }

/-- An index resolving both the present and the vanished tag. -/
def wDbGone : Index := [("src:xl:S:r2", 7), ("src:xl:Gone:r2", 9)]

/-- Sheet named with a space — normalizes to the same tag stem as
`cexSheetB`. -/
def cexSheetA : Sheet := { name := "My Sheet", rows := [wHeaderRow, wDataRow], maxCol := 2 }

/-- Sheet named with an underscore — normalizes to the same tag stem as
`cexSheetA`. -/
def cexSheetB : Sheet := { name := "My_Sheet", rows := [wHeaderRow, wDataRow], maxCol := 2 }

/-! ## Decimal rendering of row indices

The tag scheme embeds Python's `f"...r{row_idx}"`, i.e. `toString` of a
`Nat`; the lemmas below establish that this rendering is digit-only and
injective, which is what tag uniqueness rests on. -/

theorem tdc_append (fuel n : Nat) (ds : List Char) :
    Nat.toDigitsCore 10 fuel n ds = Nat.toDigitsCore 10 fuel n [] ++ ds := by
  induction fuel generalizing n ds with
  | zero => simp [Nat.toDigitsCore]
  | succ f ih =>
    rw [Nat.toDigitsCore, Nat.toDigitsCore]
    by_cases h : n / 10 = 0
    · simp [h]
    · simp only [if_neg h]
      rw [ih, ih (n / 10) [Nat.digitChar (n % 10)]]
      simp

theorem readNat_append_digit (xs : List Char) (c : Char) :
    readNat (xs ++ [c]) = readNat xs * 10 + (c.toNat - 48) := by
  unfold readNat
  rw [List.foldl_append]
  rfl

theorem digitChar_toNat (k : Nat) (h : k < 10) : (Nat.digitChar k).toNat - 48 = k := by
  interval_cases k <;> rfl

theorem digitChar_isDigit (k : Nat) (h : k < 10) : (Nat.digitChar k).isDigit = true := by
  interval_cases k <;> rfl

theorem readNat_toDigitsCore (fuel n : Nat) (h : n < fuel) :
    readNat (Nat.toDigitsCore 10 fuel n []) = n := by
  induction fuel generalizing n with
  | zero => omega
  | succ f ih =>
    rw [Nat.toDigitsCore]
    by_cases h0 : n / 10 = 0
    · simp only [if_pos h0]
      have h1 : readNat [Nat.digitChar (n % 10)] = n % 10 := by
        unfold readNat
        simp [digitChar_toNat (n % 10) (Nat.mod_lt _ (by norm_num))]
      rw [h1]
      omega
    · simp only [if_neg h0]
      rw [tdc_append, readNat_append_digit]
      have hlt : n / 10 < f := by
        have h1 : 0 < n := by
          by_contra hc
          push_neg at hc
          interval_cases n
          simp at h0
        have := Nat.div_lt_self h1 (by norm_num : 1 < 10)
        omega
      rw [ih (n / 10) hlt, digitChar_toNat (n % 10) (Nat.mod_lt _ (by norm_num))]
      omega

theorem readNat_toString (n : Nat) : readNat (toString n).data = n := by
  have h : (toString n).data = Nat.toDigitsCore 10 (n + 1) n [] := rfl
  rw [h]
  exact readNat_toDigitsCore (n + 1) n (Nat.lt_succ_self n)

theorem toString_nat_inj (m n : Nat) (h : toString m = toString n) : m = n := by
  have hd := congrArg String.data h
  calc m = readNat (toString m).data := (readNat_toString m).symm
    _ = readNat (toString n).data := by rw [hd]
    _ = n := readNat_toString n

theorem toDigitsCore_digits (fuel n : Nat) (h : n < fuel) :
    ∀ c ∈ Nat.toDigitsCore 10 fuel n [], c.isDigit = true := by
  induction fuel generalizing n with
  | zero => omega
  | succ f ih =>
    rw [Nat.toDigitsCore]
    by_cases h0 : n / 10 = 0
    · simp only [if_pos h0]
      intro c hc
      simp at hc
      subst hc
      exact digitChar_isDigit _ (Nat.mod_lt _ (by norm_num))
    · simp only [if_neg h0]
      rw [tdc_append]
      intro c hc
      rcases List.mem_append.mp hc with h1 | h1
      · have hlt : n / 10 < f := by
          have h2 : 0 < n := by
            by_contra hc2
            push_neg at hc2
            interval_cases n
            simp at h0
          have := Nat.div_lt_self h2 (by norm_num : 1 < 10)
          omega
        exact ih (n / 10) hlt c h1
      · simp at h1
        subst h1
        exact digitChar_isDigit _ (Nat.mod_lt _ (by norm_num))

theorem toString_data_digits (n : Nat) : ∀ c ∈ (toString n).data, c.isDigit = true := by
  have h : (toString n).data = Nat.toDigitsCore 10 (n + 1) n [] := rfl
  rw [h]
  exact toDigitsCore_digits (n + 1) n (Nat.lt_succ_self n)

/-- Cancellation around an `'r'` marker: a digit-only block followed by
`'r'` can be split off uniquely (an `'r'` is not a digit). -/
theorem digits_r_cancel :
    ∀ (x₁ x₂ res₁ res₂ : List Char),
      (∀ c ∈ x₁, c.isDigit = true) → (∀ c ∈ x₂, c.isDigit = true) →
      x₁ ++ 'r' :: res₁ = x₂ ++ 'r' :: res₂ → x₁ = x₂ ∧ res₁ = res₂ := by
  intro x₁
  induction x₁ with
  | nil =>
    intro x₂ res₁ res₂ _ hd2 h
    cases x₂ with
    | nil => simpa using h
    | cons b bs =>
      simp at h
      exfalso
      have hb := hd2 b (by simp)
      rw [h.1.symm] at hb
      simp [Char.isDigit] at hb
  | cons a as ih =>
    intro x₂ res₁ res₂ hd1 hd2 h
    cases x₂ with
    | nil =>
      simp at h
      exfalso
      have ha := hd1 a (by simp)
      rw [h.1] at ha
      simp [Char.isDigit] at ha
    | cons b bs =>
      simp at h
      obtain ⟨hab, hrest⟩ := h
      have hih := ih bs res₁ res₂ (fun c hc => hd1 c (by simp [hc]))
        (fun c hc => hd2 c (by simp [hc])) hrest
      exact ⟨by rw [hab, hih.1], hih.2⟩

/-- The tag former is injective up to space-normalization of the sheet name:
equal tags force equal normalized names and equal row indices. -/
theorem mkSrcTag_inj (n₁ n₂ : String) (i₁ i₂ : Nat)
    (h : mkSrcTag n₁ i₁ = mkSrcTag n₂ i₂) :
    underscoreSpaces n₁ = underscoreSpaces n₂ ∧ i₁ = i₂ := by
  have hd := congrArg String.data h
  unfold mkSrcTag at hd
  simp only [String.data_append] at hd
  simp only [List.append_assoc, List.cons_append, List.nil_append, List.cons.injEq,
    true_and] at hd
  have hrev := congrArg List.reverse hd
  simp only [List.reverse_append, List.reverse_cons, List.reverse_nil, List.append_assoc,
    List.nil_append, List.cons_append] at hrev
  have hdig : ∀ (i : Nat), ∀ c ∈ (toString i).data.reverse, c.isDigit = true := by
    intro i c hc
    exact toString_data_digits i c (List.mem_reverse.mp hc)
  have hcan := digits_r_cancel (toString i₁).data.reverse (toString i₂).data.reverse
    (':' :: (underscoreSpaces n₁).data.reverse) (':' :: (underscoreSpaces n₂).data.reverse)
    (hdig i₁) (hdig i₂) hrev
  constructor
  · apply String.ext
    have h2 := hcan.2
    simp only [List.cons.injEq, true_and] at h2
    exact List.reverse_injective h2
  · apply toString_nat_inj
    apply String.ext
    exact List.reverse_injective hcan.1

/-! ## Basic facts about the row pipeline -/

theorem rowInfo_tag (cfg : Config) (n : String) (hs : Headers) (i : Nat)
    (row : List Cell) (pv : String) :
    (rowInfo cfg n hs i row pv).tag = mkSrcTag n i := rfl

theorem rowInfo_rowIdx (cfg : Config) (n : String) (hs : Headers) (i : Nat)
    (row : List Cell) (pv : String) :
    (rowInfo cfg n hs i row pv).rowIdx = i := rfl

theorem emitRow_eq_create_or_update (cfg : Config) (db : Index) (n : String)
    (hs : Headers) (i : Nat) (row : List Cell) (pv : String) :
    emitRow cfg db n hs i row pv = mkCreateResult (rowInfo cfg n hs i row pv)
      ∨ ∃ tid, lookupIdx db (mkSrcTag n i) = Option.some tid
          ∧ emitRow cfg db n hs i row pv = mkUpdateResult (rowInfo cfg n hs i row pv) tid := by
  unfold emitRow
  rw [rowInfo_tag]
  cases h : lookupIdx db (mkSrcTag n i) with
  | none => left; rfl
  | some tid =>
    by_cases hm : cfg.mode = Mode.create
    · left; simp [hm]
    · right; exact ⟨tid, rfl, by simp [hm]⟩

theorem emitRow_update (cfg : Config) (db : Index) (n : String) (hs : Headers)
    (i : Nat) (row : List Cell) (pv : String) (tid : Nat)
    (hm : cfg.mode = Mode.sync)
    (hl : lookupIdx db (mkSrcTag n i) = Option.some tid) :
    emitRow cfg db n hs i row pv = mkUpdateResult (rowInfo cfg n hs i row pv) tid := by
  unfold emitRow
  rw [rowInfo_tag, hl]
  have hnc : ¬ cfg.mode = Mode.create := by rw [hm]; intro hc; cases hc
  simp [hnc]

theorem emitRow_create_none (cfg : Config) (db : Index) (n : String) (hs : Headers)
    (i : Nat) (row : List Cell) (pv : String)
    (hl : lookupIdx db (mkSrcTag n i) = Option.none) :
    emitRow cfg db n hs i row pv = mkCreateResult (rowInfo cfg n hs i row pv) := by
  unfold emitRow
  rw [rowInfo_tag, hl]

theorem emitRow_tag (cfg : Config) (db : Index) (n : String) (hs : Headers)
    (i : Nat) (row : List Cell) (pv : String) :
    (emitRow cfg db n hs i row pv).tag = mkSrcTag n i := by
  rcases emitRow_eq_create_or_update cfg db n hs i row pv with h | ⟨tid, _, h⟩ <;>
    rw [h] <;> rfl

theorem emitRow_rowIdx (cfg : Config) (db : Index) (n : String) (hs : Headers)
    (i : Nat) (row : List Cell) (pv : String) :
    (emitRow cfg db n hs i row pv).rowIdx = i := by
  rcases emitRow_eq_create_or_update cfg db n hs i row pv with h | ⟨tid, _, h⟩ <;>
    rw [h] <;> rfl

theorem processRow_some (cfg : Config) (db : Index) (n : String) (hs : Headers)
    (i : Nat) (row : List Cell) (r : RowResult)
    (h : processRow cfg db n hs i row = Option.some r) :
    ∃ pv, rowPrimary hs row = Option.some pv
      ∧ nanaSkip cfg n (getVal hs row ["tier"]) = false
      ∧ r = emitRow cfg db n hs i row pv := by
  unfold processRow at h
  cases hp : rowPrimary hs row with
  | none => rw [hp] at h; cases h
  | some pv =>
    rw [hp] at h
    by_cases hn : nanaSkip cfg n (getVal hs row ["tier"]) = true
    · simp [hn] at h
    · simp only [Bool.not_eq_true] at hn
      simp only [hn, if_false, Bool.false_eq_true, Option.some.injEq] at h
      exact ⟨pv, rfl, hn, h.symm⟩

theorem processRow_tag (cfg : Config) (db : Index) (n : String) (hs : Headers)
    (i : Nat) (row : List Cell) :
    (processRow cfg db n hs i row).map RowResult.tag = rowTag? cfg n hs i row := by
  unfold processRow rowTag?
  cases hp : rowPrimary hs row with
  | none => rfl
  | some pv =>
    by_cases hn : nanaSkip cfg n (getVal hs row ["tier"]) = true
    · simp [hn]
    · simp only [Bool.not_eq_true] at hn
      simp [hn, emitRow_tag]

theorem processRow_rowIdx (cfg : Config) (db : Index) (n : String) (hs : Headers)
    (i : Nat) (row : List Cell) (r : RowResult)
    (h : processRow cfg db n hs i row = Option.some r) : r.rowIdx = i := by
  obtain ⟨pv, _, _, hr⟩ := processRow_some cfg db n hs i row r h
  rw [hr]
  exact emitRow_rowIdx cfg db n hs i row pv

theorem processSheet_srcTags (cfg : Config) (db : Index) (s : Sheet) :
    (processSheet cfg db s).srcTags = sheetTags cfg s := by
  unfold processSheet sheetTags
  by_cases hc : (isTableShape s && !(findHeaders s.rows).1.isEmpty) = true
  · simp only [hc, if_true]
    unfold sheetRowResults
    rw [List.map_filterMap]
    congr 1
    funext q
    exact processRow_tag cfg db s.name (findHeaders s.rows).1
      ((findHeaders s.rows).2 + 1 + q.1) q.2
  · simp only [Bool.not_eq_true] at hc
    simp [hc]

theorem runCurrTags_eq_runTags (cfg : Config) (db : Index) (sheets : List Sheet) :
    runCurrTags cfg db sheets = runTags cfg sheets := by
  unfold runCurrTags runTags runSheetResults
  rw [List.map_map]
  apply congrArg List.flatten
  apply List.map_congr_left
  intro s _
  exact processSheet_srcTags cfg db s

/-! ## Shape of the emitted batch -/

theorem runImport_actions (cfg : Config) (db : Index) (dcid : Option Nat)
    (man : Manifest) (sheets : List Sheet) :
    (runImport cfg db dcid man sheets).actions
      = runControlAction cfg db dcid man sheets
          :: (((runSheetResults cfg db sheets).map SheetResult.actions).flatten
              ++ runSoftDeletes cfg db man sheets) := rfl

theorem runImport_manifest (cfg : Config) (db : Index) (dcid : Option Nat)
    (man : Manifest) (sheets : List Sheet) :
    (runImport cfg db dcid man sheets).manifest
      = { srcTags := runCurrTags cfg db sheets, controlDocId := resolveCid dcid man } := rfl

theorem runImport_stats_created (cfg : Config) (db : Index) (dcid : Option Nat)
    (man : Manifest) (sheets : List Sheet) :
    (runImport cfg db dcid man sheets).stats_created
      = ((runSheetResults cfg db sheets).map SheetResult.created).sum := rfl

theorem runImport_stats_updated (cfg : Config) (db : Index) (dcid : Option Nat)
    (man : Manifest) (sheets : List Sheet) :
    (runImport cfg db dcid man sheets).stats_updated
      = ((runSheetResults cfg db sheets).map SheetResult.updated).sum := rfl

theorem runImport_stats_removed (cfg : Config) (db : Index) (dcid : Option Nat)
    (man : Manifest) (sheets : List Sheet) :
    (runImport cfg db dcid man sheets).stats_removed
      = (runSoftDeletes cfg db man sheets).length := rfl

theorem mem_sheetRowResults (cfg : Config) (db : Index) (s : Sheet) (r : RowResult)
    (h : r ∈ sheetRowResults cfg db s) :
    ∃ i row pv, rowPrimary (findHeaders s.rows).1 row = Option.some pv
      ∧ r = emitRow cfg db s.name (findHeaders s.rows).1 i row pv := by
  unfold sheetRowResults at h
  obtain ⟨q, _, hpr⟩ := List.mem_filterMap.mp h
  obtain ⟨pv, hp, _, hr⟩ := processRow_some _ _ _ _ _ _ _ hpr
  exact ⟨_, _, pv, hp, hr⟩

theorem processSheet_table (cfg : Config) (db : Index) (s : Sheet)
    (hc : (isTableShape s && !(findHeaders s.rows).1.isEmpty) = true) :
    processSheet cfg db s
      = { actions := (sheetRowResults cfg db s).map (fun r => r.action)
          srcTags := (sheetRowResults cfg db s).map (fun r => r.tag)
          created := ((sheetRowResults cfg db s).filter (fun r => r.isCreate)).length
          updated := ((sheetRowResults cfg db s).filter (fun r => !r.isCreate)).length
          summary := "- **" ++ s.name ++ "**: "
            ++ toString ((sheetRowResults cfg db s).filter (fun r => r.isCreate)).length
            ++ " created, "
            ++ toString ((sheetRowResults cfg db s).filter (fun r => !r.isCreate)).length
            ++ " updated" } := by
  unfold processSheet
  rw [if_pos hc]

theorem processSheet_ref (cfg : Config) (db : Index) (s : Sheet)
    (hc : ¬ (isTableShape s && !(findHeaders s.rows).1.isEmpty) = true) :
    processSheet cfg db s
      = { actions := [mkRefDocAction cfg s]
          srcTags := []
          created := 0
          updated := 0
          summary := "- **" ++ s.name ++ "**: Created as Document" } := by
  unfold processSheet
  rw [if_neg hc]

theorem sheetTags_eq_map_tag (cfg : Config) (db : Index) (s : Sheet) :
    (isTableShape s && !(findHeaders s.rows).1.isEmpty) = true →
    sheetTags cfg s = (sheetRowResults cfg db s).map (fun r => r.tag) := by
  intro hc
  have h := processSheet_srcTags cfg db s
  rw [processSheet_table cfg db s hc] at h
  exact h.symm

/-! ## C5 and C9 -/

/-- C5: the manifest written at the end of every run lists exactly the source
tags generated in that run (`runTags` is a function of the workbook and the
configuration only), so tags known to the previous manifest but unseen in the
current run are never carried over. -/
theorem manifest_supersedes (cfg : Config) (db : Index) (dcid : Option Nat)
    (man : Manifest) (sheets : List Sheet) :
    (runImport cfg db dcid man sheets).manifest.srcTags = runTags cfg sheets := by
  rw [runImport_manifest]
  exact runCurrTags_eq_runTags cfg db sheets

theorem sheetRowResults_nil_create (cfg : Config) (s : Sheet) (r : RowResult)
    (h : r ∈ sheetRowResults cfg [] s) :
    r.isCreate = true ∧ r.action.type = "task.create" := by
  obtain ⟨i, row, pv, _, hr⟩ := mem_sheetRowResults cfg [] s r h
  rw [hr, emitRow_create_none cfg [] s.name (findHeaders s.rows).1 i row pv rfl]
  exact ⟨rfl, rfl⟩

theorem processSheet_nil_created (cfg : Config) (s : Sheet) :
    (processSheet cfg [] s).created = (sheetTags cfg s).length
      ∧ (processSheet cfg [] s).updated = 0 := by
  by_cases hc : (isTableShape s && !(findHeaders s.rows).1.isEmpty) = true
  · rw [processSheet_table cfg [] s hc, sheetTags_eq_map_tag cfg [] s hc]
    constructor
    · have hf : (sheetRowResults cfg [] s).filter (fun r => r.isCreate)
          = sheetRowResults cfg [] s :=
        List.filter_eq_self.mpr (fun r hr => (sheetRowResults_nil_create cfg s r hr).1)
      rw [hf]
      simp
    · have hf : (sheetRowResults cfg [] s).filter (fun r => !r.isCreate) = [] :=
        List.filter_eq_nil_iff.mpr (fun r hr => by
          simp [(sheetRowResults_nil_create cfg s r hr).1])
      rw [hf]
      rfl
  · rw [processSheet_ref cfg [] s hc]
    have ht : sheetTags cfg s = [] := by
      unfold sheetTags
      rw [if_neg hc]
    rw [ht]
    exact ⟨rfl, rfl⟩

theorem softDeleteActions_nil (now : String) (prev curr : List String) :
    softDeleteActions now [] prev curr = [] := by
  unfold softDeleteActions
  exact List.filterMap_eq_nil_iff.mpr (fun t _ => rfl)

/-- C9: when the persistent store is absent or its query fails, `db_tasks`
stays empty (`loadIndex none = []`); the run still produces its full action
batch (control action first, then the per-sheet actions) and its manifest,
every processed table row takes the create branch, and nothing is updated or
soft-deleted. -/
theorem store_unavailable_degrades (cfg : Config) (dcid : Option Nat)
    (man : Manifest) (sheets : List Sheet) (s : Sheet) :
    (∀ r ∈ sheetRowResults cfg (loadIndex Option.none) s,
        r.isCreate = true ∧ r.action.type = "task.create")
  ∧ (runImport cfg (loadIndex Option.none) dcid man sheets).stats_created
      = (runTags cfg sheets).length
  ∧ (runImport cfg (loadIndex Option.none) dcid man sheets).stats_updated = 0
  ∧ (runImport cfg (loadIndex Option.none) dcid man sheets).stats_removed = 0
  ∧ (runImport cfg (loadIndex Option.none) dcid man sheets).actions
      = runControlAction cfg (loadIndex Option.none) dcid man sheets
          :: ((runSheetResults cfg (loadIndex Option.none) sheets).map
                SheetResult.actions).flatten
  ∧ (runImport cfg (loadIndex Option.none) dcid man sheets).manifest
      = { srcTags := runTags cfg sheets, controlDocId := resolveCid dcid man } := by
  have hnil : loadIndex Option.none = ([] : Index) := rfl
  have hsd : runSoftDeletes cfg (loadIndex Option.none) man sheets = [] := by
    unfold runSoftDeletes
    rw [hnil]
    by_cases hm : cfg.mode = Mode.sync
    · rw [if_pos hm]
      exact softDeleteActions_nil _ _ _
    · rw [if_neg hm]
  refine ⟨fun r hr => sheetRowResults_nil_create cfg s r (by rw [hnil] at hr; exact hr),
    ?_, ?_, ?_, ?_, ?_⟩
  · rw [runImport_stats_created, hnil]
    unfold runSheetResults runTags
    rw [List.map_map, List.length_flatten, List.map_map]
    apply congrArg List.sum
    apply List.map_congr_left
    intro t _
    exact (processSheet_nil_created cfg t).1
  · rw [runImport_stats_updated, hnil]
    unfold runSheetResults
    rw [List.map_map]
    have h : ∀ t ∈ sheets, (SheetResult.updated ∘ processSheet cfg []) t = (fun _ => 0) t :=
      fun t _ => (processSheet_nil_created cfg t).2
    rw [List.map_congr_left h]
    simp
  · rw [runImport_stats_removed, hsd]
    rfl
  · rw [runImport_actions, hsd]
    simp
  · rw [runImport_manifest, runCurrTags_eq_runTags]

/-! ## C1 -/

/-- C1 (amended): in sync mode, every table-sheet row whose source tag
resolves in the Existing-Record Index yields the update addressed at the
resolved record id, never a duplicate create; a row whose tag does not
resolve yields a create carrying the full field payload. (In create mode the
update half fails — see the counterexample.) -/
theorem row_update_vs_create (cfg : Config) (db : Index) (s : Sheet) (r : RowResult)
    (hr : r ∈ sheetRowResults cfg db s) :
    ResolvedYieldsUpdate db cfg.mode r ∧ UnresolvedYieldsCreate db r := by
  obtain ⟨i, row, pv, _, hre⟩ := mem_sheetRowResults cfg db s r hr
  have htag : r.tag = mkSrcTag s.name i := by
    rw [hre]
    exact emitRow_tag cfg db s.name (findHeaders s.rows).1 i row pv
  constructor
  · intro tid hm hl
    rw [htag] at hl
    rw [hre, emitRow_update cfg db s.name (findHeaders s.rows).1 i row pv tid hm hl]
    exact ⟨rfl, rfl⟩
  · intro hl
    rw [htag] at hl
    rw [hre, emitRow_create_none cfg db s.name (findHeaders s.rows).1 i row pv hl]
    exact ⟨rfl, rfl, rfl, rfl, rfl, rfl, rfl, rfl⟩

/-- C1 witness: on the concrete sync-mode run whose only data row resolves to
task id 7, the theorem applies. -/
theorem row_update_vs_create_witness :
    wRowSync ∈ sheetRowResults wCfgSync wDb wSheet
  ∧ (ResolvedYieldsUpdate wDb wCfgSync.mode wRowSync
      ∧ UnresolvedYieldsCreate wDb wRowSync) :=
  ⟨by decide, row_update_vs_create wCfgSync wDb wSheet wRowSync (by decide)⟩

/-- C1 counterexample: in create mode, the row whose tag `src:xl:S:r2` is in
the current run, in the manifest's previous-known set, and resolvable to
task id 7, is still emitted as a `task.create` — not the update the claim
requires. -/
theorem row_update_counterexample :
    ((sheetRowResults wCfgCreate wDb wSheet).map (fun r => (r.tag, r.action.type)))
      = [("src:xl:S:r2", "task.create")]
  ∧ "src:xl:S:r2" ∈ wMan.srcTags
  ∧ lookupIdx wDb "src:xl:S:r2" = Option.some 7 := by decide

/-! ## C4 -/

/-- C4 (amended): the priority-subset filter applies exactly to sheets whose
name contains `"NanaGarden"`: there, with the flag enabled, a row whose tier
contains neither "hero" nor "signature" (case-insensitively) is excluded,
and a row whose tier contains one of them is included. -/
theorem tier_filter (cfg : Config) (db : Index) (n : String) (hs : Headers)
    (i : Nat) (row : List Cell)
    (hflag : cfg.top15Only = true) (hnana : strContains n "NanaGarden" = true) :
    TierExcluded cfg db n hs i row ∧ TierIncluded cfg db n hs i row := by
  constructor
  · intro hh hsig
    unfold processRow
    cases hp : rowPrimary hs row with
    | none => rfl
    | some pv =>
      have hn : nanaSkip cfg n (getVal hs row ["tier"]) = true := by
        unfold nanaSkip
        rw [hnana, hflag, hh, hsig]
        rfl
      simp [hn]
  · intro pv hp hor
    unfold processRow
    rw [hp]
    have hn : nanaSkip cfg n (getVal hs row ["tier"]) = false := by
      unfold nanaSkip
      rcases hor with h | h <;> rw [h] <;> simp
    simp [hn]

/-- C4 witness: on the concrete NanaGarden sheet with the flag on, the
theorem applies (its row 2 has tier `"Standard"`, its row 3 tier
`"Hero Variant"`). -/
theorem tier_filter_witness :
    wCfgTop15.top15Only = true
  ∧ strContains "NanaGarden Trees" "NanaGarden" = true
  ∧ (TierExcluded wCfgTop15 [] "NanaGarden Trees" (findHeaders wNanaSheet.rows).1 2 wDataRow
      ∧ TierIncluded wCfgTop15 [] "NanaGarden Trees" (findHeaders wNanaSheet.rows).1 2 wDataRow) :=
  ⟨rfl, by decide,
    tier_filter wCfgTop15 [] "NanaGarden Trees" (findHeaders wNanaSheet.rows).1 2 wDataRow
      rfl (by decide)⟩

/-- C4 counterexample: with the flag enabled, a row of tier `"Standard"` on a
sheet not named NanaGarden is *not* excluded — the claim's "every table-sheet
row" fails. -/
theorem tier_filter_counterexample :
    ((sheetRowResults wCfgTop15 [] wSheet).map (fun r => (r.tag, r.action.type)))
      = [("src:xl:S:r2", "task.create")]
  ∧ getVal (findHeaders wSheet.rows).1 wDataRow ["tier"] = "Standard"
  ∧ strContains (pyLower "Standard") "hero" = false
  ∧ strContains (pyLower "Standard") "signature" = false
  ∧ wCfgTop15.top15Only = true := by decide

/-! ## C3 -/

theorem mem_data_append_left (a b : String) (c : Char) (h : c ∈ a.data) :
    c ∈ (a ++ b).data := by
  rw [String.data_append]
  exact List.mem_append.mpr (Or.inl h)

theorem colon_mem_append₂ (a b : String) : ':' ∈ (a ++ ": " ++ b).data := by
  apply mem_data_append_left
  rw [String.data_append]
  exact List.mem_append.mpr (Or.inr (by decide))

theorem rowInfo_title (cfg : Config) (n : String) (hs : Headers) (i : Nat)
    (row : List Cell) (pv : String) :
    (rowInfo cfg n hs i row pv).title
      = (if getVal hs row ["tier"] ≠ "" then
           n ++ ": " ++ pv ++ " [Tier:" ++ getVal hs row ["tier"] ++ "]"
         else n ++ ": " ++ pv) := rfl

theorem colon_mem_rowTitle (cfg : Config) (n : String) (hs : Headers) (i : Nat)
    (row : List Cell) (pv : String) :
    ':' ∈ ((rowInfo cfg n hs i row pv).title).data := by
  rw [rowInfo_title]
  split
  · apply mem_data_append_left
    apply mem_data_append_left
    apply mem_data_append_left
    exact colon_mem_append₂ n pv
  · exact colon_mem_append₂ n pv

theorem mkCreateResult_title (info : RowInfo) :
    (mkCreateResult info).action.data.title = Option.some info.title := rfl

theorem mkUpdateResult_title (info : RowInfo) (tid : Nat) :
    (mkUpdateResult info tid).action.data.title = Option.some info.title := rfl

theorem rowResult_title_colon (cfg : Config) (db : Index) (s : Sheet) (r : RowResult)
    (h : r ∈ sheetRowResults cfg db s) :
    ∃ t, r.action.data.title = Option.some t ∧ ':' ∈ t.data := by
  obtain ⟨i, row, pv, _, hre⟩ := mem_sheetRowResults cfg db s r h
  rcases emitRow_eq_create_or_update cfg db s.name (findHeaders s.rows).1 i row pv
    with he | ⟨tid, _, he⟩ <;> rw [hre, he]
  · exact ⟨_, mkCreateResult_title _,
      colon_mem_rowTitle cfg s.name (findHeaders s.rows).1 i row pv⟩
  · exact ⟨_, mkUpdateResult_title _ _,
      colon_mem_rowTitle cfg s.name (findHeaders s.rows).1 i row pv⟩

theorem rowResult_action_type (cfg : Config) (db : Index) (s : Sheet) (r : RowResult)
    (h : r ∈ sheetRowResults cfg db s) :
    r.action.type = "task.create" ∨ r.action.type = "task.update" := by
  obtain ⟨i, row, pv, _, hre⟩ := mem_sheetRowResults cfg db s r h
  rcases emitRow_eq_create_or_update cfg db s.name (findHeaders s.rows).1 i row pv
    with he | ⟨tid, _, he⟩ <;> rw [hre, he]
  · left; rfl
  · right; rfl

theorem mem_sheetActions (cfg : Config) (db : Index) (sheets : List Sheet) (a : Action)
    (h : a ∈ ((runSheetResults cfg db sheets).map SheetResult.actions).flatten) :
    ∃ s ∈ sheets, a ∈ (processSheet cfg db s).actions := by
  rw [List.mem_flatten] at h
  obtain ⟨l, hl, hal⟩ := h
  rw [List.mem_map] at hl
  obtain ⟨sr, hsr, hre⟩ := hl
  unfold runSheetResults at hsr
  rw [List.mem_map] at hsr
  obtain ⟨s, hs, hse⟩ := hsr
  exact ⟨s, hs, by rw [hse, hre]; exact hal⟩

theorem mem_processSheet_actions (cfg : Config) (db : Index) (s : Sheet) (a : Action)
    (h : a ∈ (processSheet cfg db s).actions) :
    ((isTableShape s && !(findHeaders s.rows).1.isEmpty) = true
      ∧ ∃ r ∈ sheetRowResults cfg db s, a = r.action)
    ∨ a = mkRefDocAction cfg s := by
  by_cases hc : (isTableShape s && !(findHeaders s.rows).1.isEmpty) = true
  · rw [processSheet_table cfg db s hc] at h
    left
    obtain ⟨r, hr, hre⟩ := List.mem_map.mp h
    exact ⟨hc, r, hr, hre.symm⟩
  · rw [processSheet_ref cfg db s hc] at h
    right
    simpa using h

theorem mem_runSoftDeletes (cfg : Config) (db : Index) (man : Manifest)
    (sheets : List Sheet) (a : Action)
    (h : a ∈ runSoftDeletes cfg db man sheets) :
    ∃ tid, a = mkSoftDelete cfg.now tid := by
  unfold runSoftDeletes at h
  split at h
  · unfold softDeleteActions at h
    obtain ⟨t, _, ht⟩ := List.mem_filterMap.mp h
    cases hl : lookupIdx db t with
    | none => rw [hl] at ht; cases ht
    | some tid => rw [hl] at ht; exact ⟨tid, (Option.some.inj ht).symm⟩
  · cases h

/-- Every non-control action in a batch carries either no title or a title
containing a colon — so none of them can be the control document (whose
title has no colon). -/
theorem batch_tail_titles (cfg : Config) (db : Index) (man : Manifest)
    (sheets : List Sheet) (a : Action)
    (h : a ∈ ((runSheetResults cfg db sheets).map SheetResult.actions).flatten
           ++ runSoftDeletes cfg db man sheets) :
    a.data.title = Option.none ∨ ∃ t, a.data.title = Option.some t ∧ ':' ∈ t.data := by
  rcases List.mem_append.mp h with h1 | h1
  · obtain ⟨s, _, has⟩ := mem_sheetActions cfg db sheets a h1
    rcases mem_processSheet_actions cfg db s a has with ⟨_, r, hr, hre⟩ | hre
    · right
      rw [hre]
      exact rowResult_title_colon cfg db s r hr
    · right
      refine ⟨"Reference: " ++ s.name ++ " - AVAONE Q1", by rw [hre]; rfl, ?_⟩
      apply mem_data_append_left
      apply mem_data_append_left
      decide
  · obtain ⟨tid, hre⟩ := mem_runSoftDeletes cfg db man sheets a h1
    left
    rw [hre]
    rfl

theorem colon_not_mem_controlDocTitle : ':' ∉ controlDocTitle.data := by decide

theorem mkControlAction_title (mode : Mode) (cid : Option Nat) (content : String) :
    (mkControlAction mode cid content).data.title = Option.some controlDocTitle := by
  unfold mkControlAction
  split <;> rfl

theorem mkControlAction_create_iff (mode : Mode) (cid : Option Nat) (content : String) :
    (mkControlAction mode cid content).type = "doc.create"
      ↔ (mode = Mode.create ∨ cid = Option.none) := by
  unfold mkControlAction
  split
  · rename_i hcond
    exact iff_of_true rfl hcond
  · rename_i hcond
    constructor
    · intro ht
      have hne : ¬ ("doc.update" : String) = "doc.create" := by decide
      exact absurd ht hne
    · intro hc
      exact absurd hc hcond

theorem mkControlAction_update (mode : Mode) (cid : Option Nat) (content : String)
    (i : Nat) (hm : mode = Mode.sync) (hc : cid = Option.some i) :
    (mkControlAction mode cid content).type = "doc.update"
      ∧ (mkControlAction mode cid content).data.id = Option.some i := by
  unfold mkControlAction
  have hcond : ¬ (mode = Mode.create ∨ cid = Option.none) := by
    rintro (h1 | h1)
    · rw [hm] at h1; cases h1
    · rw [hc] at h1; cases h1
  rw [if_neg hcond, hc]
  exact ⟨rfl, rfl⟩

/-- C3 (amended): every run emits exactly one control/summary document
action, at position 0 of the batch; it is a document create iff the mode is
create or no previous control-document reference resolves (store lookup
falling back to the manifest); in sync mode with a resolved reference it is
the document update addressed at that reference; and no other action of the
batch carries the control document's title. -/
theorem control_doc_upsert (cfg : Config) (db : Index) (dcid : Option Nat)
    (man : Manifest) (sheets : List Sheet) :
    (runImport cfg db dcid man sheets).actions
        = runControlAction cfg db dcid man sheets
            :: (((runSheetResults cfg db sheets).map SheetResult.actions).flatten
                ++ runSoftDeletes cfg db man sheets)
  ∧ (runControlAction cfg db dcid man sheets).data.title = Option.some controlDocTitle
  ∧ ((runControlAction cfg db dcid man sheets).type = "doc.create"
        ↔ (cfg.mode = Mode.create ∨ resolveCid dcid man = Option.none))
  ∧ (∀ i, cfg.mode = Mode.sync → resolveCid dcid man = Option.some i →
        (runControlAction cfg db dcid man sheets).type = "doc.update"
          ∧ (runControlAction cfg db dcid man sheets).data.id = Option.some i)
  ∧ (∀ a ∈ ((runSheetResults cfg db sheets).map SheetResult.actions).flatten
              ++ runSoftDeletes cfg db man sheets,
        ¬ a.data.title = Option.some controlDocTitle) := by
  refine ⟨runImport_actions cfg db dcid man sheets,
    mkControlAction_title _ _ _,
    mkControlAction_create_iff _ _ _,
    fun i hm hc => mkControlAction_update _ _ _ i hm hc,
    fun a ha hcontra => ?_⟩
  rcases batch_tail_titles cfg db man sheets a ha with h1 | ⟨t, h1, h2⟩
  · rw [hcontra] at h1
    cases h1
  · rw [hcontra] at h1
    have ht : t = controlDocTitle := (Option.some.inj h1).symm
    rw [ht] at h2
    exact colon_not_mem_controlDocTitle h2

/-- C3 counterexample: in create mode with a resolved control-document
reference (store lookup id 5), the run still emits a `doc.create` — the
claim's "create iff no previous reference exists" fails. -/
theorem control_doc_counterexample :
    ((runImport wCfgCreate [] (Option.some 5)
        { srcTags := [], controlDocId := Option.none } []).actions.map
          (fun a => a.type))
      = ["doc.create"]
  ∧ resolveCid (Option.some 5) { srcTags := [], controlDocId := Option.none }
      = Option.some 5 := by decide

/-! ## C2 -/

theorem dedupF_mem (l : List String) :
    ∀ (acc : List String) (t : String),
      t ∈ l.foldl (fun acc t => if acc.contains t then acc else acc ++ [t]) acc
        ↔ t ∈ acc ∨ t ∈ l := by
  induction l with
  | nil => intro acc t; simp
  | cons a l ih =>
    intro acc t
    simp only [List.foldl_cons]
    by_cases hc : acc.contains a = true
    · rw [if_pos hc, ih]
      simp only [List.mem_cons]
      constructor
      · rintro (h | h)
        · exact Or.inl h
        · exact Or.inr (Or.inr h)
      · rintro (h | h | h)
        · exact Or.inl h
        · rw [h]
          exact Or.inl (by simpa using hc)
        · exact Or.inr h
    · rw [if_neg hc, ih]
      simp only [List.mem_append, List.mem_singleton, List.mem_cons]
      tauto

theorem dedupF_nodup (l : List String) :
    ∀ acc : List String, acc.Nodup →
      (l.foldl (fun acc t => if acc.contains t then acc else acc ++ [t]) acc).Nodup := by
  induction l with
  | nil => intro acc h; simpa using h
  | cons a l ih =>
    intro acc h
    simp only [List.foldl_cons]
    by_cases hc : acc.contains a = true
    · rw [if_pos hc]
      exact ih acc h
    · rw [if_neg hc]
      apply ih
      rw [List.nodup_append]
      refine ⟨h, List.nodup_singleton a, ?_⟩
      intro x hx hax
      rw [List.mem_singleton] at hax
      rw [hax] at hx
      exact hc (by simpa using hx)

theorem mem_removedTags (prev curr : List String) (t : String) :
    t ∈ removedTags prev curr ↔ (t ∈ prev ∧ t ∉ curr) := by
  unfold removedTags
  rw [List.mem_filter, dedupF_mem]
  simp

theorem removedTags_nodup (prev curr : List String) : (removedTags prev curr).Nodup := by
  unfold removedTags
  exact List.Nodup.filter _ (dedupF_nodup prev [] List.nodup_nil)

theorem length_filterMap_lookup (db : Index) (now : String) (l : List String) :
    (l.filterMap (fun t => (lookupIdx db t).map (mkSoftDelete now))).length
      = (l.filter (fun t => (lookupIdx db t).isSome)).length := by
  induction l with
  | nil => rfl
  | cons a l ih =>
    cases hl : lookupIdx db a with
    | none => simp [List.filterMap_cons, List.filter_cons, hl, ih]
    | some tid => simp [List.filterMap_cons, List.filter_cons, hl, ih]

theorem runSoftDeletes_sync (cfg : Config) (db : Index) (man : Manifest)
    (sheets : List Sheet) (hm : cfg.mode = Mode.sync) :
    runSoftDeletes cfg db man sheets
      = (removedTags man.srcTags (runTags cfg sheets)).filterMap
          (fun t => (lookupIdx db t).map (mkSoftDelete cfg.now)) := by
  unfold runSoftDeletes
  rw [if_pos hm, runCurrTags_eq_runTags]
  rfl

theorem softDelete_action_shape (now : String) (tid : Nat) :
    (mkSoftDelete now tid).type = "task.update"
      ∧ (mkSoftDelete now tid).data.status = Option.some "done"
      ∧ (mkSoftDelete now tid).data.notes
          = Option.some ("[SYNC] Removed from Excel on " ++ now) :=
  ⟨rfl, rfl, rfl⟩

theorem batch_action_types (cfg : Config) (db : Index) (dcid : Option Nat)
    (man : Manifest) (sheets : List Sheet) :
    ∀ a ∈ (runImport cfg db dcid man sheets).actions,
      a.type = "task.create" ∨ a.type = "task.update"
        ∨ a.type = "doc.create" ∨ a.type = "doc.update" := by
  intro a ha
  rw [runImport_actions] at ha
  rcases List.mem_cons.mp ha with h | h
  · rw [h]
    unfold runControlAction mkControlAction
    split
    · right; right; left; rfl
    · right; right; right; rfl
  · rcases List.mem_append.mp h with h1 | h1
    · obtain ⟨s, _, has⟩ := mem_sheetActions cfg db sheets a h1
      rcases mem_processSheet_actions cfg db s a has with ⟨_, r, hr, hre⟩ | hre
      · rw [hre]
        rcases rowResult_action_type cfg db s r hr with ht | ht
        · left; exact ht
        · right; left; exact ht
      · rw [hre]
        right; right; left; rfl
    · obtain ⟨tid, hre⟩ := mem_runSoftDeletes cfg db man sheets a h1
      rw [hre]
      right; left; rfl

/-- C2: in sync mode every previously-known tag absent from the current run
and resolvable in the Existing-Record Index yields exactly one soft-delete —
a `task.update` setting status "done" with a timestamped removal note;
unresolvable tags yield nothing, and no delete-kind action exists anywhere in
the batch. -/
theorem soft_delete_reconciliation (cfg : Config) (db : Index) (dcid : Option Nat)
    (man : Manifest) (sheets : List Sheet) (hm : cfg.mode = Mode.sync) :
    SoftDeleteSpec cfg db dcid man sheets := by
  refine ⟨runSoftDeletes_sync cfg db man sheets hm,
    removedTags_nodup _ _,
    fun t => mem_removedTags _ _ t,
    ?_,
    ?_,
    runImport_actions cfg db dcid man sheets,
    batch_action_types cfg db dcid man sheets⟩
  · rw [runImport_stats_removed, runSoftDeletes_sync cfg db man sheets hm]
    exact length_filterMap_lookup db cfg.now _
  · intro a ha
    obtain ⟨tid, hre⟩ := mem_runSoftDeletes cfg db man sheets a ha
    rw [hre]
    exact softDelete_action_shape cfg.now tid

/-- C2 witness: concrete sync run over `wSheet` with a manifest remembering a
vanished tag that resolves to task id 9. -/
theorem soft_delete_reconciliation_witness :
    SoftDeleteSpec wCfgSync wDbGone Option.none wManGone [wSheet] :=
  soft_delete_reconciliation wCfgSync wDbGone Option.none wManGone [wSheet] rfl

/-! ## C6 -/

theorem pairwise_fst_lt_enumFrom {α : Type _} (n : Nat) (l : List α) :
    (List.enumFrom n l).Pairwise (fun a b => a.1 < b.1) := by
  induction l generalizing n with
  | nil => exact List.Pairwise.nil
  | cons a l ih =>
    rw [List.enumFrom_cons]
    constructor
    · rintro ⟨i, x⟩ hp
      have h := List.mem_enumFrom hp
      simp only at h ⊢
      omega
    · exact ih (n + 1)

theorem sheetRowResults_pairwise (cfg : Config) (db : Index) (s : Sheet) :
    (sheetRowResults cfg db s).Pairwise (fun a b => a.rowIdx < b.rowIdx) := by
  unfold sheetRowResults
  rw [List.pairwise_filterMap]
  have hp : (List.enum (s.rows.drop (findHeaders s.rows).2)).Pairwise
      (fun a b => a.1 < b.1) := pairwise_fst_lt_enumFrom 0 _
  apply List.Pairwise.imp ?_ hp
  intro a b hab r hr r' hr'
  rw [Option.mem_def] at hr hr'
  have h1 := processRow_rowIdx cfg db s.name (findHeaders s.rows).1
    ((findHeaders s.rows).2 + 1 + a.1) a.2 r hr
  have h2 := processRow_rowIdx cfg db s.name (findHeaders s.rows).1
    ((findHeaders s.rows).2 + 1 + b.1) b.2 r' hr'
  omega

/-- C6: the control-document action is at position 0; per-sheet actions
follow in sheet order (each table sheet contributing exactly its row
results' actions, whose row indices are strictly increasing); the
soft-delete block is appended after every per-row action. -/
theorem batch_ordering (cfg : Config) (db : Index) (dcid : Option Nat)
    (man : Manifest) (sheets : List Sheet) :
    (runImport cfg db dcid man sheets).actions
        = runControlAction cfg db dcid man sheets
            :: ((sheets.map (fun s => (processSheet cfg db s).actions)).flatten
                ++ runSoftDeletes cfg db man sheets)
  ∧ (∀ s, (isTableShape s && !(findHeaders s.rows).1.isEmpty) = true →
        (processSheet cfg db s).actions
          = (sheetRowResults cfg db s).map (fun r => r.action))
  ∧ (∀ s, (sheetRowResults cfg db s).Pairwise (fun a b => a.rowIdx < b.rowIdx)) := by
  refine ⟨?_, ?_, fun s => sheetRowResults_pairwise cfg db s⟩
  · rw [runImport_actions]
    unfold runSheetResults
    rw [List.map_map]
    rfl
  · intro s hc
    rw [processSheet_table cfg db s hc]

/-! ## C7 -/

theorem sheetRowResults_all_update (cfg : Config) (db : Index) (s : Sheet)
    (hm : cfg.mode = Mode.sync)
    (hc : (isTableShape s && !(findHeaders s.rows).1.isEmpty) = true)
    (hidx : ∀ t ∈ sheetTags cfg s, (lookupIdx db t).isSome = true) :
    ∀ r ∈ sheetRowResults cfg db s,
      r.isCreate = false ∧ r.action.type = "task.update" := by
  intro r hr
  obtain ⟨i, row, pv, _, hre⟩ := mem_sheetRowResults cfg db s r hr
  have htag : r.tag = mkSrcTag s.name i := by
    rw [hre]
    exact emitRow_tag cfg db s.name (findHeaders s.rows).1 i row pv
  have hmem : r.tag ∈ sheetTags cfg s := by
    rw [sheetTags_eq_map_tag cfg db s hc]
    exact List.mem_map.mpr ⟨r, hr, rfl⟩
  have hsome := hidx _ hmem
  rw [htag] at hsome
  obtain ⟨tid, hl⟩ := Option.isSome_iff_exists.mp hsome
  rw [hre, emitRow_update cfg db s.name (findHeaders s.rows).1 i row pv tid hm hl]
  exact ⟨rfl, rfl⟩

theorem processSheet_sync_counts (cfg : Config) (db : Index) (s : Sheet)
    (hm : cfg.mode = Mode.sync)
    (hidx : ∀ t ∈ sheetTags cfg s, (lookupIdx db t).isSome = true) :
    (processSheet cfg db s).created = 0
      ∧ (processSheet cfg db s).updated = (sheetTags cfg s).length := by
  by_cases hc : (isTableShape s && !(findHeaders s.rows).1.isEmpty) = true
  · have hall := sheetRowResults_all_update cfg db s hm hc hidx
    rw [processSheet_table cfg db s hc, sheetTags_eq_map_tag cfg db s hc]
    constructor
    · have hf : (sheetRowResults cfg db s).filter (fun r => r.isCreate) = [] :=
        List.filter_eq_nil_iff.mpr (fun r hr => by simp [(hall r hr).1])
      rw [hf]
      rfl
    · have hf : (sheetRowResults cfg db s).filter (fun r => !r.isCreate)
          = sheetRowResults cfg db s :=
        List.filter_eq_self.mpr (fun r hr => by simp [(hall r hr).1])
      rw [hf]
      simp
  · rw [processSheet_ref cfg db s hc]
    have ht : sheetTags cfg s = [] := by
      unfold sheetTags
      rw [if_neg hc]
    rw [ht]
    exact ⟨rfl, rfl⟩

theorem removedTags_self (l : List String) : removedTags l l = [] := by
  rw [List.eq_nil_iff_forall_not_mem]
  intro t ht
  rw [mem_removedTags] at ht
  exact ht.2 ht.1

theorem sheetTags_subset_runTags (cfg : Config) (sheets : List Sheet) (s : Sheet)
    (hs : s ∈ sheets) (t : String) (ht : t ∈ sheetTags cfg s) :
    t ∈ runTags cfg sheets := by
  unfold runTags
  exact List.mem_flatten.mpr ⟨sheetTags cfg s, List.mem_map.mpr ⟨s, hs, rfl⟩, ht⟩

/-- C7: running sync twice over an unchanged workbook, where before the
second run the Existing-Record Index resolves every tag the run generates,
yields zero creates, one update per qualifying table row, zero soft-deletes,
and no `task.create` anywhere in the second batch. -/
theorem sync_idempotent (cfg : Config) (db1 db2 : Index) (dcid1 dcid2 : Option Nat)
    (man1 : Manifest) (sheets : List Sheet)
    (hm : cfg.mode = Mode.sync)
    (hidx : ∀ t ∈ runTags cfg sheets, (lookupIdx db2 t).isSome = true) :
    SyncSecondRunSpec cfg db1 db2 dcid1 dcid2 man1 sheets := by
  have hidxs : ∀ s ∈ sheets, ∀ t ∈ sheetTags cfg s, (lookupIdx db2 t).isSome = true :=
    fun s hs t ht => hidx t (sheetTags_subset_runTags cfg sheets s hs t ht)
  have hman2 : (runImport cfg db1 dcid1 man1 sheets).manifest.srcTags
      = runTags cfg sheets := by
    rw [runImport_manifest]
    exact runCurrTags_eq_runTags cfg db1 sheets
  have hsd : runSoftDeletes cfg db2 (runImport cfg db1 dcid1 man1 sheets).manifest
      sheets = [] := by
    unfold runSoftDeletes
    rw [if_pos hm, runCurrTags_eq_runTags, hman2]
    unfold softDeleteActions
    rw [removedTags_self]
    rfl
  refine ⟨?_, ?_, ?_, ?_⟩
  · rw [runImport_stats_created]
    unfold runSheetResults
    rw [List.map_map]
    have h : ∀ s ∈ sheets,
        (SheetResult.created ∘ processSheet cfg db2) s = (fun _ => 0) s :=
      fun s hs => (processSheet_sync_counts cfg db2 s hm (hidxs s hs)).1
    rw [List.map_congr_left h]
    simp
  · rw [runImport_stats_updated]
    unfold runSheetResults runTags
    rw [List.map_map, List.length_flatten, List.map_map]
    apply congrArg List.sum
    apply List.map_congr_left
    intro s hs
    exact (processSheet_sync_counts cfg db2 s hm (hidxs s hs)).2
  · rw [runImport_stats_removed, hsd]
    rfl
  · intro a ha
    rw [runImport_actions] at ha
    have hne1 : ¬ ("doc.create" : String) = "task.create" := by decide
    have hne2 : ¬ ("doc.update" : String) = "task.create" := by decide
    have hne3 : ¬ ("task.update" : String) = "task.create" := by decide
    rcases List.mem_cons.mp ha with h | h
    · rw [h]
      unfold runControlAction mkControlAction
      split
      · intro hcontra
        exact hne1 hcontra
      · intro hcontra
        exact hne2 hcontra
    · rcases List.mem_append.mp h with h1 | h1
      · obtain ⟨s, hs, has⟩ := mem_sheetActions cfg db2 sheets a h1
        rcases mem_processSheet_actions cfg db2 s a has with ⟨hc, r, hr, hre⟩ | hre
        · have hupd := (sheetRowResults_all_update cfg db2 s hm hc (hidxs s hs) r hr).2
          rw [hre, hupd]
          exact hne3
        · rw [hre]
          intro hcontra
          exact hne1 hcontra
      · obtain ⟨tid, hre⟩ := mem_runSoftDeletes cfg db2 _ sheets a h1
        rw [hre]
        intro hcontra
        exact hne3 hcontra

/-- C7 witness: the concrete two-run scenario (first run over `wSheet` with
an empty index, second with every generated tag resolving through `wDb`). -/
theorem sync_idempotent_witness :
    wCfgSync.mode = Mode.sync
  ∧ (∀ t ∈ runTags wCfgSync [wSheet], (lookupIdx wDb t).isSome = true)
  ∧ SyncSecondRunSpec wCfgSync [] wDb Option.none Option.none
      { srcTags := [], controlDocId := Option.none } [wSheet] :=
  ⟨rfl, by decide,
    sync_idempotent wCfgSync [] wDb Option.none Option.none
      { srcTags := [], controlDocId := Option.none } [wSheet] rfl (by decide)⟩

/-! ## C8 -/

theorem rowTag?_some (cfg : Config) (n : String) (hs : Headers) (i : Nat)
    (row : List Cell) (t : String)
    (h : rowTag? cfg n hs i row = Option.some t) : t = mkSrcTag n i := by
  unfold rowTag? at h
  cases hp : rowPrimary hs row <;> rw [hp] at h
  · cases h
  · by_cases hn : nanaSkip cfg n (getVal hs row ["tier"]) = true
    · rw [if_pos hn] at h
      cases h
    · rw [if_neg hn] at h
      exact (Option.some.inj h).symm

theorem mem_sheetTags (cfg : Config) (s : Sheet) (t : String)
    (h : t ∈ sheetTags cfg s) : ∃ i, t = mkSrcTag s.name i := by
  unfold sheetTags at h
  split at h
  · obtain ⟨q, _, hq⟩ := List.mem_filterMap.mp h
    exact ⟨_, rowTag?_some cfg s.name (findHeaders s.rows).1
      ((findHeaders s.rows).2 + 1 + q.1) q.2 t hq⟩
  · cases h

theorem sheetTags_nodup (cfg : Config) (s : Sheet) : (sheetTags cfg s).Nodup := by
  unfold sheetTags
  split
  · show List.Pairwise _ _
    rw [List.pairwise_filterMap]
    have hp : (List.enum (s.rows.drop (findHeaders s.rows).2)).Pairwise
        (fun a b => a.1 < b.1) := pairwise_fst_lt_enumFrom 0 _
    apply List.Pairwise.imp ?_ hp
    intro a b hab t ht t' ht'
    rw [Option.mem_def] at ht ht'
    have h1 := rowTag?_some cfg s.name (findHeaders s.rows).1
      ((findHeaders s.rows).2 + 1 + a.1) a.2 t ht
    have h2 := rowTag?_some cfg s.name (findHeaders s.rows).1
      ((findHeaders s.rows).2 + 1 + b.1) b.2 t' ht'
    intro he
    rw [h1, h2] at he
    have := (mkSrcTag_inj s.name s.name _ _ he).2
    omega
  · exact List.nodup_nil

theorem runTags_nodup (cfg : Config) (sheets : List Sheet)
    (hnames : (sheets.map (fun s => underscoreSpaces s.name)).Nodup) :
    (runTags cfg sheets).Nodup := by
  unfold runTags
  rw [List.nodup_flatten]
  constructor
  · intro l hl
    obtain ⟨s, _, hse⟩ := List.mem_map.mp hl
    rw [← hse]
    exact sheetTags_nodup cfg s
  · rw [List.pairwise_map]
    have hn : (sheets.map (fun s => underscoreSpaces s.name)).Nodup := hnames
    rw [List.Nodup, List.pairwise_map] at hn
    apply List.Pairwise.imp ?_ hn
    intro s1 s2 hne t ht1 ht2
    obtain ⟨i, he1⟩ := mem_sheetTags cfg s1 t ht1
    obtain ⟨j, he2⟩ := mem_sheetTags cfg s2 t ht2
    rw [he1] at he2
    exact hne (mkSrcTag_inj s1.name s2.name i j he2).1

theorem rowResult_tag_positional (cfg : Config) (db : Index) (s : Sheet)
    (r : RowResult) (hr : r ∈ sheetRowResults cfg db s) :
    r.tag = mkSrcTag s.name r.rowIdx := by
  obtain ⟨i, row, pv, _, hre⟩ := mem_sheetRowResults cfg db s r hr
  rw [hre, emitRow_tag cfg db s.name (findHeaders s.rows).1 i row pv,
    emitRow_rowIdx cfg db s.name (findHeaders s.rows).1 i row pv]

/-- C8 (amended): every qualifying row yields exactly one source tag
`"src:xl:<name with spaces underscored>:r<row index>"`, a pure function of
sheet name and row position; tags never collide within a sheet, and never
collide within a run provided no two sheet names coincide after
space-to-underscore normalization (which the counterexample shows is the one
way two rows can share a tag). -/
theorem tag_scheme (cfg : Config) (db : Index) (sheets : List Sheet)
    (hnames : (sheets.map (fun s => underscoreSpaces s.name)).Nodup) :
    TagSchemeSpec cfg db sheets :=
  ⟨runTags_nodup cfg sheets hnames,
    fun s => sheetTags_nodup cfg s,
    fun s _ r hr => rowResult_tag_positional cfg db s r hr,
    fun s => processSheet_srcTags cfg db s⟩

/-- C8 witness: the two-sheet workbook `[wSheet, wNanaSheet]` has distinct
normalized names, so the theorem applies. -/
theorem tag_scheme_witness :
    ([wSheet, wNanaSheet].map (fun s => underscoreSpaces s.name)).Nodup
  ∧ TagSchemeSpec wCfgSync wDb [wSheet, wNanaSheet] :=
  ⟨by decide, tag_scheme wCfgSync wDb [wSheet, wNanaSheet] (by decide)⟩

/-- C8 counterexample: the distinct sheet names `"My Sheet"` and `"My_Sheet"`
normalize identically, so their row-2 rows produce the same tag — two rows of
one run share a tag and the run's tag list is not duplicate-free. -/
theorem tag_collision_counterexample :
    runTags wCfgSync [cexSheetA, cexSheetB]
      = ["src:xl:My_Sheet:r2", "src:xl:My_Sheet:r2"]
  ∧ ¬ (runTags wCfgSync [cexSheetA, cexSheetB]).Nodup
  ∧ cexSheetA.name ≠ cexSheetB.name := by
  refine ⟨by decide, by decide, by decide⟩

/-! ## C10 -/

theorem take_min_50 (l : List (List Cell)) :
    l.take (min l.length 50) = l.take 50 := by
  rw [List.take_eq_take]
  rcases Nat.le_total l.length 50 with h | h
  · rw [Nat.min_eq_left h]
    rw [Nat.min_eq_left (Nat.le_refl _), Nat.min_eq_right h]
  · rw [Nat.min_eq_right h]

theorem mkRefDocContent_take50 (cfg : Config) (s : Sheet) :
    mkRefDocContent cfg s
      = "# " ++ s.name ++ "\n\nproject:avaone-q1\nxl:file:" ++ cfg.excelFile ++ "\n\n"
          ++ String.join ((s.rows.take 50).map refRowLine) := by
  unfold mkRefDocContent
  rw [take_min_50]

/-- C10: a reference (non-table) sheet emits one document create whose body
renders at most the first 50 rows; rows beyond 50 are silently omitted (two
reference sheets of the same name agreeing on their first 50 rows yield
identical actions). -/
theorem ref_doc_truncation (cfg : Config) (db : Index) (s1 s2 : Sheet)
    (h1 : ¬ (isTableShape s1 && !(findHeaders s1.rows).1.isEmpty) = true)
    (h2 : ¬ (isTableShape s2 && !(findHeaders s2.rows).1.isEmpty) = true)
    (hn : s1.name = s2.name)
    (hr : s1.rows.take 50 = s2.rows.take 50) :
    RefDocSpec cfg db s1 s2 := by
  refine ⟨?_, mkRefDocContent_take50 cfg s1, ?_⟩
  · rw [processSheet_ref cfg db s1 h1]
  · rw [processSheet_ref cfg db s1 h1, processSheet_ref cfg db s2 h2]
    unfold mkRefDocAction
    rw [mkRefDocContent_take50, mkRefDocContent_take50, hn, hr]

/-- C10 witness: a 55-row and a 51-row reference sheet agreeing on the first
50 rows. -/
theorem ref_doc_truncation_witness :
    ¬ (isTableShape wRefLong1 && !(findHeaders wRefLong1.rows).1.isEmpty) = true
  ∧ ¬ (isTableShape wRefLong2 && !(findHeaders wRefLong2.rows).1.isEmpty) = true
  ∧ wRefLong1.name = wRefLong2.name
  ∧ wRefLong1.rows.take 50 = wRefLong2.rows.take 50
  ∧ RefDocSpec wCfgSync [] wRefLong1 wRefLong2 :=
  ⟨by decide, by decide, rfl, by decide,
    ref_doc_truncation wCfgSync [] wRefLong1 wRefLong2 (by decide) (by decide) rfl
      (by decide)⟩

end Avaone
